import Mathlib

/-!
Verification development for the coupling-index monitor backend.

The definitions below are a shallow embedding of the Python sources under
`app/`: JSON numbers are modelled as exact rationals, Python dicts as
association lists preserving insertion order, Python sets as duplicate-free
lists, and code that can raise as `Option`/`Except`-valued functions.
-/

/-- Lookup in a Python dict modelled as an association list: the value
stored under the key, if present. -/
def dict_lookup {κ β : Type} [DecidableEq κ] : List (κ × β) → κ → Option β
  | [], _ => none
  | (k1, v) :: rest, k => if k1 = k then some v else dict_lookup rest k

/-- Intersection of two Python sets modelled as duplicate-free lists. -/
def inter_list : List String → List String → List String
  | [], _ => []
  | x :: xs, b => if x ∈ b then x :: inter_list xs b else inter_list xs b

/-- Elements of the first list that are not in the second. -/
def diff_list : List String → List String → List String
  | [], _ => []
  | x :: xs, a => if x ∈ a then diff_list xs a else x :: diff_list xs a

/-- Union of two Python sets modelled as duplicate-free lists. -/
def union_list (a b : List String) : List String := a ++ diff_list b a

/-- The distinct elements of a list, as produced by wrapping it in a Python
set; only its length is ever used. -/
def distinct_list : List String → List String
  | [] => []
  | x :: xs => if x ∈ xs then distinct_list xs else x :: distinct_list xs

/-- A span reference, as found in a raw Jaeger trace record: a reference
type (only CHILD_OF is meaningful) and the identifier of the referenced
span. -/
structure Ref where
  refType : String
  spanID : String
deriving DecidableEq

/-- One recorded span of a trace: its identifier, the identifier of the
process that executed it, its duration in integer microseconds (kept as an
exact rational so the later division by 1000 is exact), and its list of
references. -/
structure Span where
  spanID : String
  processID : String
  duration : ℚ
  references : List Ref
deriving DecidableEq

/-- One trace: a trace identifier, the mapping from process identifiers to
service names, and the list of spans. -/
structure Trace where
  traceID : String
  processes : List (String × String)
  spans : List Span
deriving DecidableEq

/-- Aggregated data for one (source service, destination service) pair while
the graph is being built: the call count and the list of latency samples in
milliseconds.  Mirrors the per-key dict values of `edge_weights` in
`weighted_graph.py`. -/
structure EdgeData where
  count : ℕ
  latencies : List ℚ
deriving DecidableEq

/-- State threaded through the span loop of
`generate_graph_with_edge_weights`: the insertion-ordered `edge_weights`
dict and the `execution_sets` dict (service name to the set of trace ids it
participated in, kept as a duplicate-free list). -/
structure BuildState where
  edgeWeights : List ((String × String) × EdgeData)
  execSets : List (String × List String)
deriving DecidableEq

/-- Rounding of an exact rational to 4 decimal places, standing in for the
Python builtin round as used by the weight assigner.  Ties, which no claim
exercises, are resolved upward here while Python resolves them to even. -/
def roundQ4 (q : ℚ) : ℚ := ((⌊q * 10000 + 1 / 2⌋ : ℤ) : ℚ) / 10000

/-- Embedding of `compute_jaccard_similarity` (weighted_graph.py, lines
109-136): the intersection size over the union size of the two execution
sets, rounded to 4 decimal places, and 0 when the union is empty. -/
def compute_jaccard_similarity (execution_sets : List (String × List String))
    (source destination : String) : ℚ :=
  let executions_source := (dict_lookup execution_sets source).getD []
  let executions_destination := (dict_lookup execution_sets destination).getD []
  let intersection_size := (inter_list executions_source executions_destination).length
  let union_size := (union_list executions_source executions_destination).length
  roundQ4 (if union_size > 0 then (intersection_size : ℚ) / (union_size : ℚ) else 0)

/-- Embedding of `add_trace_to_execution_sets` (weighted_graph.py, lines
104-107): create the singleton set when the service is new, otherwise add
the trace id to its set (sets are duplicate-free lists in insertion
order). -/
def add_trace_to_execution_sets (execution_sets : List (String × List String))
    (trace_id : String) (service : String) : List (String × List String) :=
  if (dict_lookup execution_sets service).isSome then
    execution_sets.map (fun p =>
      if p.1 = service then (p.1, if trace_id ∈ p.2 then p.2 else p.2 ++ [trace_id]) else p)
  else
    execution_sets ++ [(service, [trace_id])]

/-- Update of the `edge_weights` dict for one observed call: increment the
count and append the latency sample when the key exists, otherwise append a
fresh entry with count 1 (Python dicts keep insertion order). -/
def update_edge_weights (ew : List ((String × String) × EdgeData))
    (k : String × String) (lat : ℚ) : List ((String × String) × EdgeData) :=
  if (dict_lookup ew k).isSome then
    ew.map (fun p =>
      if p.1 = k then (p.1, EdgeData.mk (p.2.count + 1) (p.2.latencies ++ [lat])) else p)
  else
    ew ++ [(k, EdgeData.mk 1 [lat])]

/-- First CHILD_OF reference of a span, as found by the reference loop with
its break statement. -/
def first_child_of : List Ref → Option String
  | [] => none
  | r :: rest => if r.refType = "CHILD_OF" then some r.spanID else first_child_of rest

/-- First span of the trace carrying the given span id, as found by the
generator expression with next(..., None). -/
def find_span (spans : List Span) (sid : String) : Option Span :=
  match spans with
  | [] => none
  | s :: rest => if s.spanID = sid then some s else find_span rest sid

/-- Resolution of one span to a (parent service, child service) call
observation, mirroring the guards of the span loop shared by
`generate_graph_with_edge_weights` and `generate_weighted_graph`: the span
must carry a truthy CHILD_OF reference (Python treats the empty string as
false), its process must be mapped, the parent span must be found in the
same trace, and the parent process must be mapped. -/
def resolve_call (processes : List (String × String)) (spans : List Span)
    (span : Span) : Option (String × String) :=
  match first_child_of span.references with
  | none => none
  | some parent_span_id =>
    if parent_span_id = "" then none
    else
      match dict_lookup processes span.processID with
      | none => none
      | some child_service =>
        match find_span spans parent_span_id with
        | none => none
        | some parent_span =>
          match dict_lookup processes parent_span.processID with
          | none => none
          | some parent_service => some (parent_service, child_service)

/-- One iteration of the span loop of `generate_graph_with_edge_weights`
(weighted_graph.py, lines 22-48): once the call resolves, the parent
service always records the trace in its execution set; self-loops are then
skipped, and otherwise the child execution set and the edge aggregation are
updated (durations are converted to milliseconds). -/
def process_span (trace_id : String) (processes : List (String × String))
    (spans : List Span) (st : BuildState) (span : Span) : BuildState :=
  match resolve_call processes spans span with
  | none => st
  | some (parent_service, child_service) =>
    let ex1 := add_trace_to_execution_sets st.execSets trace_id parent_service
    if parent_service = child_service then { st with execSets := ex1 }
    else
      { edgeWeights := update_edge_weights st.edgeWeights (parent_service, child_service)
          (span.duration / 1000),
        execSets := add_trace_to_execution_sets ex1 trace_id child_service }

/-- The span loop of `generate_graph_with_edge_weights` over one trace. -/
def process_trace (st : BuildState) (trace : Trace) : BuildState :=
  trace.spans.foldl (fun s span => process_span trace.traceID trace.processes trace.spans s span) st

/-- The trace loop of `generate_graph_with_edge_weights`: both dicts start
empty and persist across traces. -/
def build_state (traces : List Trace) : BuildState :=
  traces.foldl process_trace { edgeWeights := [], execSets := [] }

/-- The selectable edge-weight scheme (`WEIGHT_TYPES` in
`app/utils/constants.py`, which only its importers ship): a closed
three-valued enumeration. -/
inductive WeightType
  | Frequency
  | Latency
  | CoExecution
deriving DecidableEq

/-- One node record of the serialized graph (`node_link_data` output): the
service name under the key id, plus the attribute dict.  Attributes are
kept as a key-value list because the metric extractor reads them back by
string key with a default. -/
structure NodeRec where
  id : String
  attrs : List (String × ℚ)
deriving DecidableEq

/-- One edge of the serialized weighted graph, with the canonical weight and
the three always-populated attributes of `assign_edge_weights`. -/
structure OutEdge where
  source : String
  target : String
  weight : ℚ
  latencyMs : ℚ
  frequency : ℕ
  co_execution : ℚ
deriving DecidableEq

/-- Embedding of `assign_edge_weights` (weighted_graph.py, lines 76-102).
The average latency is round(sum(latencies) / len(latencies), 4) with no
guard, so an entry with an empty sample list raises ZeroDivisionError,
modelled as `none`.  All three attributes are stored on every edge; the
scheme only selects which becomes the canonical weight. -/
def assign_edge_weights (edge_weight_type : WeightType) :
    List ((String × String) × EdgeData) → List (String × List String) → Option (List OutEdge)
  | [], _ => some []
  | (k, data) :: rest, execution_sets =>
    match data.latencies with
    | [] => none
    | _ :: _ =>
      let avg_latency := roundQ4 (data.latencies.sum / (data.latencies.length : ℚ))
      let co := compute_jaccard_similarity execution_sets k.1 k.2
      match assign_edge_weights edge_weight_type rest execution_sets with
      | none => none
      | some es =>
        some ({ source := k.1, target := k.2,
                weight := match edge_weight_type with
                  | .Frequency => (data.count : ℚ)
                  | .Latency => avg_latency
                  | .CoExecution => co,
                latencyMs := avg_latency, frequency := data.count, co_execution := co } :: es)

/-- The node list of the networkx digraph: endpoints of edges in first
insertion order, as `add_edge` creates them. -/
def graph_node_ids (ew : List ((String × String) × EdgeData)) : List String :=
  ew.foldl (fun acc p =>
    let acc1 := if p.1.1 ∈ acc then acc else acc ++ [p.1.1]
    if p.1.2 ∈ acc1 then acc1 else acc1 ++ [p.1.2]) []

/-- Sources of the edges pointing into v, in edge order. -/
def keys_into (ks : List (String × String)) (v : String) : List String :=
  match ks with
  | [] => []
  | k :: rest => if k.2 = v then k.1 :: keys_into rest v else keys_into rest v

/-- Targets of the edges leaving v, in edge order. -/
def keys_from (ks : List (String × String)) (v : String) : List String :=
  match ks with
  | [] => []
  | k :: rest => if k.1 = v then k.2 :: keys_from rest v else keys_from rest v

/-- Embedding of `calculate_node_weights` (weighted_graph.py, lines 59-74)
for one node: the count of distinct predecessors is stored under the key
absolute_importance and the count of distinct successors under
absolute_dependence. -/
def calculate_node_weights (ew : List ((String × String) × EdgeData)) (v : String) : NodeRec :=
  let ks := ew.map (fun p => p.1)
  let consumers := distinct_list (keys_into ks v)
  let dependencies := distinct_list (keys_from ks v)
  { id := v,
    attrs := [("absolute_importance", (consumers.length : ℚ)),
              ("absolute_dependence", (dependencies.length : ℚ))] }

/-- The serialized graph returned by the builder: the node list with the two
structural metrics and the weighted edge list. -/
structure GraphData where
  nodes : List NodeRec
  edges : List OutEdge
deriving DecidableEq

/-- Embedding of `generate_graph_with_edge_weights` (weighted_graph.py,
lines 5-57): fold all traces into the aggregation state, assign the edge
weights, then compute the node weights over the resulting graph. -/
def generate_graph_with_edge_weights (traces : List Trace)
    (edge_weight_type : WeightType) : Option GraphData :=
  let st := build_state traces
  match assign_edge_weights edge_weight_type st.edgeWeights st.execSets with
  | none => none
  | some edges =>
    some { nodes := (graph_node_ids st.edgeWeights).map (calculate_node_weights st.edgeWeights),
           edges := edges }

/-- The trace batch of the documented two-span scenario: service A calls
service B once in each of five separate traces, each call taking 10
milliseconds (a 10000 microsecond child span), and A and B co-occur with no
other service. -/
def scenario_trace (i : String) : Trace :=
  { traceID := i,
    processes := [("p1", "A"), ("p2", "B")],
    spans := [ { spanID := "s1", processID := "p1", duration := 20000, references := [] },
               { spanID := "s2", processID := "p2", duration := 10000,
                 references := [ { refType := "CHILD_OF", spanID := "s1" } ] } ] }

/-- The five-trace batch of the scenario. -/
def scenario_traces : List Trace :=
  [scenario_trace "t1", scenario_trace "t2", scenario_trace "t3",
   scenario_trace "t4", scenario_trace "t5"]

/-- One edge of the serialized graph of `generate_weighted_graph`
(graph_processor.py): canonical weight, average latency (not rounded
there) and frequency. -/
structure GPEdge where
  source : String
  target : String
  weight : ℚ
  latency : ℚ
  frequency : ℕ
deriving DecidableEq

/-- The serialized graph of `generate_weighted_graph`: node ids and
edges. -/
structure GPGraph where
  nodes : List String
  edges : List GPEdge
deriving DecidableEq

/-- One iteration of the span loop of `generate_weighted_graph`
(graph_processor.py, lines 20-43): same guards as the weighted builder but
no execution sets, and the self-loop check guards the whole update. -/
def gp_process_span (processes : List (String × String)) (spans : List Span)
    (ew : List ((String × String) × EdgeData)) (span : Span) :
    List ((String × String) × EdgeData) :=
  match resolve_call processes spans span with
  | none => ew
  | some (parent_service, child_service) =>
    if parent_service = child_service then ew
    else update_edge_weights ew (parent_service, child_service) (span.duration / 1000)

/-- The span loop of `generate_weighted_graph` over one trace. -/
def gp_process_trace (ew : List ((String × String) × EdgeData)) (trace : Trace) :
    List ((String × String) × EdgeData) :=
  trace.spans.foldl (fun e span => gp_process_span trace.processes trace.spans e span) ew

/-- The trace loop of `generate_weighted_graph`. -/
def gp_build (traces : List Trace) : List ((String × String) × EdgeData) :=
  traces.foldl gp_process_trace []

/-- The edge-assignment loop of `generate_weighted_graph`
(graph_processor.py, lines 46-53): the unguarded average latency raises
ZeroDivisionError on an empty sample list, and for a weight_type other
than frequency or latency `add_edge` is never called, so the subsequent
attribute assignment raises KeyError; both failure branches are `none`. -/
def gp_assign (weight_type : String) :
    List ((String × String) × EdgeData) → Option (List GPEdge)
  | [] => some []
  | (k, data) :: rest =>
    match data.latencies with
    | [] => none
    | _ :: _ =>
      let avg := data.latencies.sum / (data.latencies.length : ℚ)
      if weight_type = "frequency" ∨ weight_type = "latency" then
        match gp_assign weight_type rest with
        | none => none
        | some es =>
          some ({ source := k.1, target := k.2,
                  weight := if weight_type = "frequency" then (data.count : ℚ) else avg,
                  latency := avg, frequency := data.count } :: es)
      else none

/-- Embedding of `generate_weighted_graph` (graph_processor.py, lines
5-56). -/
def generate_weighted_graph (traces : List Trace) (weight_type : String) : Option GPGraph :=
  match gp_assign weight_type (gp_build traces) with
  | none => none
  | some es => some { nodes := graph_node_ids (gp_build traces), edges := es }

/-- One edge record of a persisted snapshot as read back by the analyser:
source and target service names plus the numeric attribute dict. -/
structure SnapEdge where
  source : String
  target : String
  attrs : List (String × ℚ)
deriving DecidableEq

/-- The data payload of one persisted snapshot: node and edge lists. -/
structure SnapshotData where
  nodes : List NodeRec
  edges : List SnapEdge
deriving DecidableEq

/-- One persisted metric document as stored in the document store and read
back by the analyser: window boundaries in integer microseconds and the
snapshot data. -/
structure MetricDoc where
  start_time : ℤ
  end_time : ℤ
  data : SnapshotData
deriving DecidableEq

/-- Python dict.get with a default on a numeric attribute dict. -/
def py_get (attrs : List (String × ℚ)) (key : String) (dflt : ℚ) : ℚ :=
  (dict_lookup attrs key).getD dflt

/-- The machine-distinguishable error kinds surfaced by the analysis
endpoints, plus `typeError` for an uncaught Python TypeError escaping the
boundary. -/
inductive ApiError
  | invalidTimeRange
  | invalidMetric
  | invalidType
  | noData
  | storageError
  | typeError
deriving DecidableEq

/-- Embedding of `classify_metric` (change_point_analyser.py, lines 11-21):
the static lookup from metric name to entity kind; anything outside the two
fixed short-name lists raises ValueError, surfaced as InvalidMetric. -/
def classify_metric (metric : String) : Except ApiError String :=
  if metric ∈ ["imp", "dep"] then .ok "nodes"
  else if metric ∈ ["lat", "freq", "coexec"] then .ok "edges"
  else .error .invalidMetric

/-- Insertion into a time-ascending record list, the stand-in for the
pandas sort_index of the metric series frames. -/
def insert_by_time (p : ℤ × ℚ) : List (ℤ × ℚ) → List (ℤ × ℚ)
  | [] => [p]
  | q :: qs => if p.1 < q.1 then p :: q :: qs else q :: insert_by_time p qs

/-- Ascending sort of the records by timestamp. -/
def sort_by_time (l : List (ℤ × ℚ)) : List (ℤ × ℚ) := l.foldr insert_by_time []

/-- Node records whose id equals the requested one. -/
def filter_nodes_by_id (nodes : List NodeRec) (nid : String) : List NodeRec :=
  match nodes with
  | [] => []
  | n :: rest => if n.id = nid then n :: filter_nodes_by_id rest nid else filter_nodes_by_id rest nid

/-- The record loop of `fetch_node_metrics` (change_point_analyser.py,
lines 90-105): one (timestamp, value) record per snapshot, where the value
is the numpy mean of the per-node reads (0 when no node matches), and the
per-node read is n.get with the keys absoluteimportance and
absolutedependence.  An unrecognized node metric raises ValueError. -/
def node_metric_records (metric : String) (node_id : Option String) :
    List MetricDoc → Except ApiError (List (ℤ × ℚ))
  | [] => .ok []
  | entry :: rest =>
    let nodes0 := entry.data.nodes
    let nodes1 := match node_id with
      | none => nodes0
      | some nid => if nid = "" then nodes0 else filter_nodes_by_id nodes0 nid
    match (if metric = "imp" then
             .ok (nodes1.map (fun n => py_get n.attrs "absoluteimportance" 0))
           else if metric = "dep" then
             .ok (nodes1.map (fun n => py_get n.attrs "absolutedependence" 0))
           else .error .invalidMetric : Except ApiError (List ℚ)) with
    | .error e => .error e
    | .ok vals =>
      match node_metric_records metric node_id rest with
      | .error e => .error e
      | .ok recs =>
        .ok ((entry.end_time, if vals = [] then 0 else vals.sum / (vals.length : ℚ)) :: recs)

/-- Embedding of `fetch_node_metrics` (change_point_analyser.py, lines
71-107): empty (or missing) raw input short-circuits to an empty frame;
otherwise the records are computed per snapshot and sorted ascending by
timestamp.  The optional node filter is only applied when truthy (Python
treats the empty string as false). -/
def fetch_node_metrics (metric : String) (node_id : Option String)
    (raw : List MetricDoc) : Except ApiError (List (ℤ × ℚ)) :=
  if raw = [] then .ok []
  else
    match node_metric_records metric node_id raw with
    | .error e => .error e
    | .ok recs => .ok (sort_by_time recs)

/-- Embedding of `get_nodes` (change_point_analyser.py, lines 171-188):
the concatenation of every snapshot's node list, duplicates included. -/
def get_nodes (raw : List MetricDoc) : List NodeRec :=
  raw.foldl (fun acc entry => acc ++ entry.data.nodes) []

/-- itertools.permutations(ids, 2): for each position i in order, the
element at i paired with the element at every other position j in order.
`pre` is the already-consumed prefix. -/
def perm2Aux {α : Type} (pre : List α) : List α → List (α × α)
  | [] => []
  | x :: xs => ((pre ++ xs).map (fun y => (x, y))) ++ perm2Aux (pre ++ [x]) xs

/-- itertools.permutations(ids, 2) from an empty prefix. -/
def perm2 {α : Type} (l : List α) : List (α × α) := perm2Aux [] l

/-- itertools.combinations(ids, 2): each position paired with every later
position. -/
def comb2 {α : Type} : List α → List (α × α)
  | [] => []
  | x :: xs => (xs.map (fun y => (x, y))) ++ comb2 xs

/-- A candidate edge dict with source and target keys, as produced by
`get_all_edges`. -/
structure EdgeKey where
  source : String
  target : String
deriving DecidableEq

/-- Embedding of `get_all_edges` (change_point_analyser.py, lines
190-221): every ordered (directed) or unordered pair of positions of the
id list of the given node dicts, as source/target dicts. -/
def get_all_edges (nodes : List NodeRec) (directed : Bool) : List EdgeKey :=
  let ids := nodes.map (fun n => n.id)
  let pairs := if directed then perm2 ids else comb2 ids
  pairs.map (fun p => { source := p.1, target := p.2 })

/-- Embedding of `detect_change_points` (change_point_analyser.py, lines
153-160).  The segmentation algorithm (ruptures Pelt with the rbf cost,
fitted to the signal and queried with the penalty) is an external
collaborator, passed here as the function argument `pelt`; a signal of
length below 2 returns the boundary list [0, length] without invoking
it. -/
def detect_change_points (pelt : List ℚ → ℚ → List ℕ) (signal : List ℚ)
    (penalty : ℚ) : List ℕ :=
  if signal.length < 2 then [0, signal.length] else pelt signal penalty

/-- The response payload of `build_response`: the series and the
change-point timestamps. -/
structure RespData where
  series : List (ℤ × ℚ)
  change_points : List ℤ
deriving DecidableEq

/-- Timestamps of the frame rows at the given indices; `none` models the
IndexError raised when an index is out of range. -/
def index_times (df : List (ℤ × ℚ)) : List ℕ → Option (List ℤ)
  | [] => some []
  | i :: rest =>
    match df.get? i with
    | none => none
    | some p =>
      match index_times df rest with
      | none => none
      | some ts => some (p.1 :: ts)

/-- Embedding of `build_response` (change_point_analyser.py, lines
162-169): the series rows as-is, and as change points the timestamps at
all boundary indices except the last (the terminal sentinel bkps[:-1]
drops). -/
def build_response (df : List (ℤ × ℚ)) (bkps : List ℕ) : Option RespData :=
  match index_times df bkps.dropLast with
  | none => none
  | some cps => some { series := df, change_points := cps }

/-- Embedding of `handle_detect_change_points` (change_point_analyser.py,
lines 223-256).  The ValueError of `classify_metric` is caught and
returned as a 400 InvalidMetric response; with a recognized metric the
very next statement calls get_metrics_within_time_range(start_time,
end_time), omitting its required third argument, so every such execution
raises an uncaught TypeError before any data is fetched or analyzed.  No
time-range validation is performed on start_time/end_time. -/
def handle_detect_change_points (start_time end_time : ℤ) (metric : String) :
    Except ApiError RespData :=
  match classify_metric metric with
  | .error e => .error e
  | .ok _ => .error .typeError

/-- Embedding of the graphs-router change-points endpoint
(routers/graphs.py, lines 135-158): the range check fires only when both
bounds are nonzero; zero bounds are replaced by now-based defaults and the
stubbed endpoint then answers success with change_points None. -/
def graphs_detect_change_points (start_time end_time : ℤ) :
    Except ApiError (Option (List ℤ)) :=
  if start_time ≠ 0 ∧ end_time ≠ 0 ∧ start_time ≥ end_time then .error .invalidTimeRange
  else .ok none

/-- Embedding of `get_metrics_within_time_range` (db_service.py, lines
5-34): a time-range query dict is constructed from start_time and
end_time, but the find call passes the empty filter document instead of
that query, which reads every stored document; the result only depends on
the requested entity kind, and an entity kind other than nodes or edges
raises ValueError. -/
def get_metrics_within_time_range (start_time end_time : ℤ) (ty : String)
    (store : List MetricDoc) : Except ApiError (List (List NodeRec) ⊕ List (List SnapEdge)) :=
  if ty = "nodes" then .ok (.inl (store.map (fun m => m.data.nodes)))
  else if ty = "edges" then .ok (.inr (store.map (fun m => m.data.edges)))
  else .error .invalidType

/-- Entries of the version store other than the given version. -/
def remove_version (store : List (ℤ × GraphData)) (v : ℤ) : List (ℤ × GraphData) :=
  match store with
  | [] => []
  | p :: rest => if p.1 = v then remove_version rest v else p :: remove_version rest v

/-- Modelled from the spec: `save_graph_to_neo4j` is imported by the save
endpoint but its module is not part of the observed sources.  Following
section 4.4, save persists every node and edge scoped to version_id =
window_end, fails with StorageError when either window bound is absent,
and is idempotent under retry (re-saving the same version overwrites
rather than duplicates). -/
def save_graph_to_neo4j (graph_data : GraphData) (window_start window_end : Option ℤ)
    (store : List (ℤ × GraphData)) : Except ApiError (ℤ × List (ℤ × GraphData)) :=
  match window_start, window_end with
  | some _, some v => .ok (v, remove_version store v ++ [(v, graph_data)])
  | _, _ => .error .storageError

/-- Modelled from the spec: `retrieve_graph_by_id` is imported by the
retrieve endpoint but its module is not part of the observed sources.
Following section 4.4, retrieve returns the exact snapshot scoped to the
version, and empty node/edge lists (not an error) when the version does
not exist. -/
def retrieve_graph_by_id (version_id : ℤ) (store : List (ℤ × GraphData)) : GraphData :=
  match dict_lookup store version_id with
  | some g => g
  | none => { nodes := [], edges := [] }

/-- Number of occurrences of an element in a list. -/
def occ {α : Type} [DecidableEq α] (x : α) : List α → ℕ
  | [] => 0
  | y :: l => (if y = x then 1 else 0) + occ x l

/-- A stand-in segmentation algorithm used only to instantiate theorems at
concrete inputs; short signals never reach it. -/
def pelt_unused : List ℚ → ℚ → List ℕ := fun _ _ => []

/-- A persisted snapshot whose node records carry the stable schema field
names the graph builder produces: absolute_importance and
absolute_dependence. -/
def c1_snapshot : MetricDoc :=
  { start_time := 0, end_time := 1000000,
    data := { nodes := [ { id := "A", attrs := [("absolute_importance", 3), ("absolute_dependence", 1)] },
                         { id := "B", attrs := [("absolute_importance", 1), ("absolute_dependence", 0)] } ],
              edges := [] } }

/-- The expected serialized graph for the five-trace scenario. -/
def scenario_graph : GraphData :=
  { nodes := [ { id := "A", attrs := [("absolute_importance", 0), ("absolute_dependence", 1)] },
               { id := "B", attrs := [("absolute_importance", 1), ("absolute_dependence", 0)] } ],
    edges := [ { source := "A", target := "B", weight := 1, latencyMs := 10,
                 frequency := 5, co_execution := 1 } ] }

/-- The serialized graph of a single scenario trace under the frequency
scheme, used to instantiate the no-self-loop theorem concretely. -/
def c8_graph : GraphData :=
  { nodes := [ { id := "A", attrs := [("absolute_importance", 0), ("absolute_dependence", 1)] },
               { id := "B", attrs := [("absolute_importance", 1), ("absolute_dependence", 0)] } ],
    edges := [ { source := "A", target := "B", weight := 1, latencyMs := 10,
                 frequency := 1, co_execution := 1 } ] }

/-- Two snapshots of a window in which the same two services A and B are
observed in each snapshot, so the concatenated node list repeats both
ids. -/
def c7_raw : List MetricDoc :=
  [ { start_time := 0, end_time := 100,
      data := { nodes := [⟨"A", []⟩, ⟨"B", []⟩], edges := [] } },
    { start_time := 100, end_time := 200,
      data := { nodes := [⟨"A", []⟩, ⟨"B", []⟩], edges := [] } } ]

/-- A single snapshot observing services A and B once each. -/
def c7_single_raw : List MetricDoc :=
  [ { start_time := 0, end_time := 100,
      data := { nodes := [⟨"A", []⟩, ⟨"B", []⟩], edges := [] } } ]

lemma classify_metric_error_kind {m : String} {e : ApiError}
    (h : classify_metric m = .error e) : e = ApiError.invalidMetric := by
  unfold classify_metric at h
  split_ifs at h
  all_goals simp_all

lemma dict_lookup_remove_append (store : List (ℤ × GraphData)) (v : ℤ) (g : GraphData) :
    dict_lookup (remove_version store v ++ [(v, g)]) v = some g := by
  induction store with
  | nil => simp [remove_version, dict_lookup]
  | cons p rest ih =>
    by_cases h : p.1 = v
    · simpa [remove_version, h] using ih
    · simpa [remove_version, h, dict_lookup] using ih

lemma dict_lookup_none_of_forall {β : Type} (store : List (ℤ × β)) (v : ℤ)
    (h : ∀ p ∈ store, p.1 ≠ v) : dict_lookup store v = none := by
  induction store with
  | nil => rfl
  | cons p rest ih =>
    have hp : p.1 ≠ v := h p (by simp)
    simp only [dict_lookup, if_neg hp]
    exact ih (fun q hq => h q (by simp [hq]))

/-- Claim C10: for a fixed metrics store, get_metrics_within_time_range
returns the same result for any two pairs of window bounds — the
constructed time-range query is never applied to the find, so every stored
metric document is read regardless of the requested window. -/
theorem C10_window_ignored :
    ∀ (s1 e1 s2 e2 : ℤ) (ty : String) (store : List MetricDoc),
      get_metrics_within_time_range s1 e1 ty store =
        get_metrics_within_time_range s2 e2 ty store ∧
      get_metrics_within_time_range s1 e1 "nodes" store =
        .ok (.inl (store.map (fun m => m.data.nodes))) := by
  intro s1 e1 s2 e2 ty store
  exact ⟨rfl, rfl⟩

/-- Claim C4 (code bug): classify_metric rejects every metric name its own
endpoint documentation advertises (absolute_importance,
absolute_dependence, latency, frequency, coexecution) with InvalidMetric,
and accepts only the short names imp, dep, lat, freq, coexec. -/
theorem C4_classify_metric_rejects_documented_names :
    classify_metric "absolute_importance" = .error .invalidMetric ∧
    classify_metric "absolute_dependence" = .error .invalidMetric ∧
    classify_metric "latency" = .error .invalidMetric ∧
    classify_metric "frequency" = .error .invalidMetric ∧
    classify_metric "coexecution" = .error .invalidMetric ∧
    classify_metric "co_execution" = .error .invalidMetric ∧
    classify_metric "imp" = .ok "nodes" ∧
    classify_metric "dep" = .ok "nodes" ∧
    classify_metric "lat" = .ok "edges" ∧
    classify_metric "freq" = .ok "edges" ∧
    classify_metric "coexec" = .ok "edges" :=
  ⟨rfl, rfl, rfl, rfl, rfl, rfl, rfl, rfl, rfl, rfl, rfl⟩

/-- Claim C3, counterexample: called with start 5 and end 3 (so start is at
least end) and the recognized metric imp, the change-point handler does
not return InvalidTimeRange; it fails with the uncaught TypeError raised
by its malformed store call. -/
theorem C3_counterexample :
    (5 : ℤ) ≥ 3 ∧
    handle_detect_change_points 5 3 "imp" = .error .typeError ∧
    ApiError.typeError ≠ ApiError.invalidTimeRange := by
  refine ⟨by norm_num, rfl, by simp⟩

/-- Claim C3 as amended: the metric-parameterized analysis operation
performs no time-range validation — with start at least end it never
returns InvalidTimeRange for any metric name; only the graphs-router
change-points endpoint returns InvalidTimeRange, and only when both bounds
are nonzero. -/
theorem C3_time_range_not_validated :
    ∀ (s e : ℤ) (metric : String), s ≥ e →
      handle_detect_change_points s e metric ≠ .error .invalidTimeRange ∧
      (s ≠ 0 → e ≠ 0 → graphs_detect_change_points s e = .error .invalidTimeRange) := by
  intro s e metric hse
  constructor
  · cases h : classify_metric metric with
    | error a =>
      have ha := classify_metric_error_kind h
      subst ha
      simp [handle_detect_change_points, h]
    | ok a => simp [handle_detect_change_points, h]
  · intro h0 h1
    unfold graphs_detect_change_points
    rw [if_pos ⟨h0, h1, hse⟩]

/-- Witness for C3 at start 7, end 2, metric freq. -/
theorem C3_time_range_not_validated_witness :
    handle_detect_change_points 7 2 "freq" ≠ .error .invalidTimeRange ∧
    graphs_detect_change_points 7 2 = .error .invalidTimeRange :=
  ⟨(C3_time_range_not_validated 7 2 "freq" (by norm_num)).1,
   (C3_time_range_not_validated 7 2 "freq" (by norm_num)).2 (by norm_num) (by norm_num)⟩

/-- Claim C2, counterexample: on the one-point series with timestamp 100
and value 5, detection returns the boundary list and, after build_response
drops only the terminal sentinel, the reported change-point set is the
first timestamp — a nonempty set. -/
theorem C2_counterexample :
    ([(5 : ℚ)].length < 2) ∧
    build_response [((100 : ℤ), (5 : ℚ))] (detect_change_points pelt_unused [(5 : ℚ)] 10) =
      some { series := [(100, 5)], change_points := [100] } ∧
    ([(100 : ℤ)] : List ℤ) ≠ [] := by
  refine ⟨by norm_num, rfl, by simp⟩

/-- Claim C2 as amended: on a signal of length 0 or 1 detection returns
the boundary list [0, length] without invoking the segmentation algorithm
(the result does not depend on it), and for a one-point series the caller,
after dropping the terminal sentinel, reports the series' first timestamp
— a singleton set, not an empty one. -/
theorem C2_trivial_signal :
    ∀ (p1 p2 : List ℚ → ℚ → List ℕ) (pen1 pen2 : ℚ) (signal : List ℚ),
      signal.length < 2 →
      detect_change_points p1 signal pen1 = [0, signal.length] ∧
      detect_change_points p1 signal pen1 = detect_change_points p2 signal pen2 ∧
      ∀ (t : ℤ) (v : ℚ),
        build_response [(t, v)] (detect_change_points p1 [v] pen1) =
          some { series := [(t, v)], change_points := [t] } := by
  intro p1 p2 pen1 pen2 signal h
  refine ⟨by simp [detect_change_points, h], by simp [detect_change_points, h], ?_⟩
  intro t v
  simp [detect_change_points, build_response, index_times]

/-- Witness for C2 on the one-point series with timestamp 42 and value
7. -/
theorem C2_trivial_signal_witness :
    detect_change_points pelt_unused [(7 : ℚ)] 10 = [0, 1] ∧
    build_response [((42 : ℤ), (7 : ℚ))] (detect_change_points pelt_unused [(7 : ℚ)] 10) =
      some { series := [(42, 7)], change_points := [42] } := by
  have h := C2_trivial_signal pelt_unused pelt_unused 10 10 [(7 : ℚ)] (by norm_num)
  exact ⟨by simpa using h.1, h.2.2 42 7⟩

/-- Claim C9 (modelled from the spec, section 4.4): saving a graph and
retrieving the returned version identifier yields exactly the saved node
and edge sets, and retrieving a version that was never saved yields empty
node and edge lists rather than an error. -/
theorem C9_save_retrieve :
    (∀ (g : GraphData) (ws we : Option ℤ) (store : List (ℤ × GraphData)) (v : ℤ)
        (st2 : List (ℤ × GraphData)),
        save_graph_to_neo4j g ws we store = .ok (v, st2) →
        retrieve_graph_by_id v st2 = g) ∧
    (∀ (v : ℤ) (store : List (ℤ × GraphData)),
        (∀ p ∈ store, p.1 ≠ v) →
        retrieve_graph_by_id v store = { nodes := [], edges := [] }) := by
  constructor
  · intro g ws we store v st2 h
    cases ws with
    | none => simp [save_graph_to_neo4j] at h
    | some ws0 =>
      cases we with
      | none => simp [save_graph_to_neo4j] at h
      | some we0 =>
        simp only [save_graph_to_neo4j, Except.ok.injEq, Prod.mk.injEq] at h
        obtain ⟨hv, hst⟩ := h
        subst hv
        subst hst
        simp [retrieve_graph_by_id, dict_lookup_remove_append]
  · intro v store h
    simp [retrieve_graph_by_id, dict_lookup_none_of_forall store v h]

/-- Witness for C9: a save of the empty graph at version 2 retrieves it,
and version 5 of the empty store retrieves the empty payload. -/
theorem C9_save_retrieve_witness :
    retrieve_graph_by_id 2 [(2, (⟨[], []⟩ : GraphData))] = ⟨[], []⟩ ∧
    retrieve_graph_by_id 5 [] = (⟨[], []⟩ : GraphData) :=
  ⟨C9_save_retrieve.1 ⟨[], []⟩ (some 1) (some 2) [] 2 [(2, ⟨[], []⟩)] rfl,
   C9_save_retrieve.2 5 [] (by simp)⟩

/-- Claim C5, counterexample: an aggregated edge with zero latency samples
makes assign_edge_weights fail with the unguarded division by zero (there
is no N = 0 guard), instead of yielding an edge whose latency is 0. -/
theorem C5_counterexample :
    assign_edge_weights .CoExecution [(("A", "B"), { count := 0, latencies := [] })] [] = none ∧
    (none : Option (List OutEdge)) ≠
      some [{ source := "A", target := "B", weight := 0, latencyMs := 0, frequency := 0,
              co_execution := 0 }] := by
  exact ⟨rfl, by simp⟩

/-- Claim C5 as amended: for every aggregated edge with at least one
latency sample, the latency field equals the arithmetic mean of the
samples rounded to 4 decimal places (and frequency and co_execution are
populated alongside); the N = 0 case is not guarded and raises instead of
yielding 0, but cannot arise from the builder, which creates every entry
with one sample. -/
theorem C5_mean_latency :
    ∀ (wt : WeightType) (entries : List ((String × String) × EdgeData))
      (ex : List (String × List String)),
      (∀ p ∈ entries, p.2.latencies ≠ []) →
      assign_edge_weights wt entries ex =
        some (entries.map (fun p =>
          { source := p.1.1, target := p.1.2,
            weight := match wt with
              | .Frequency => (p.2.count : ℚ)
              | .Latency => roundQ4 (p.2.latencies.sum / (p.2.latencies.length : ℚ))
              | .CoExecution => compute_jaccard_similarity ex p.1.1 p.1.2,
            latencyMs := roundQ4 (p.2.latencies.sum / (p.2.latencies.length : ℚ)),
            frequency := p.2.count,
            co_execution := compute_jaccard_similarity ex p.1.1 p.1.2 })) := by
  intro wt entries ex h
  induction entries with
  | nil => rfl
  | cons p rest ih =>
    obtain ⟨k, data⟩ := p
    have hne : data.latencies ≠ [] := h (k, data) (by simp)
    have hrest : ∀ q ∈ rest, q.2.latencies ≠ [] :=
      fun q hq => h q (List.mem_cons_of_mem _ hq)
    cases hl : data.latencies with
    | nil => exact absurd hl hne
    | cons a as =>
      rw [assign_edge_weights, hl, ih hrest]
      simp [hl]

/-- Witness for C5 on a single edge with samples 3 and 5 under the
frequency scheme. -/
theorem C5_mean_latency_witness :
    assign_edge_weights .Frequency [(("A", "B"), { count := 2, latencies := [3, 5] })] [] =
      some [{ source := "A", target := "B", weight := 2, latencyMs := 4, frequency := 2,
              co_execution := 0 }] := by
  have h := C5_mean_latency .Frequency [(("A", "B"), { count := 2, latencies := [3, 5] })] []
    (by simp)
  rw [h]
  simp [roundQ4, compute_jaccard_similarity, dict_lookup, inter_list, union_list, diff_list]
  norm_num

/-- Claim C6: the documented five-trace scenario produces exactly the edge
A to B with frequency 5, latency 10 milliseconds and co-execution 1, node
A with importance 0 and dependence 1, and node B with importance 1 and
dependence 0. -/
theorem C6_scenario :
    generate_graph_with_edge_weights scenario_traces .CoExecution = some scenario_graph := by
  have hb : build_state scenario_traces =
      { edgeWeights := [(("A", "B"), { count := 5, latencies := [10, 10, 10, 10, 10] })],
        execSets := [("A", ["t1", "t2", "t3", "t4", "t5"]),
                     ("B", ["t1", "t2", "t3", "t4", "t5"])] } := by
    simp [build_state, scenario_traces, scenario_trace, process_trace, process_span,
      resolve_call, first_child_of, find_span, dict_lookup, add_trace_to_execution_sets,
      update_edge_weights]
    norm_num
  rw [generate_graph_with_edge_weights, hb]
  simp [assign_edge_weights, compute_jaccard_similarity, roundQ4, dict_lookup,
    inter_list, union_list, diff_list, graph_node_ids, calculate_node_weights,
    keys_into, keys_from, distinct_list, scenario_graph]
  norm_num

/-- Claim C1 (code bug): on a snapshot whose node records use the stable
schema keys the builder itself writes (absolute_importance 3 and 1), the
extractor reads the misspelled key absoluteimportance and so returns the
default 0 for every node — the series value is 0, not the mean 2; the last
conjunct checks that the builder really stores the underscored keys. -/
theorem C1_node_series_reads_wrong_key :
    fetch_node_metrics "imp" none [c1_snapshot] = .ok [(1000000, 0)] ∧
    ((3 : ℚ) + 1) / 2 = 2 ∧ (0 : ℚ) ≠ 2 ∧
    (calculate_node_weights [(("A", "B"), { count := 5, latencies := [10] })] "B").attrs =
      [("absolute_importance", 1), ("absolute_dependence", 0)] := by
  refine ⟨?_, by norm_num, by norm_num, ?_⟩
  · simp [fetch_node_metrics, node_metric_records, c1_snapshot, py_get, dict_lookup,
      sort_by_time, insert_by_time]
  · simp [calculate_node_weights, keys_into, keys_from, distinct_list]

lemma update_edge_weights_key_mem {ew : List ((String × String) × EdgeData)}
    {k : String × String} {lat : ℚ} {p : (String × String) × EdgeData}
    (hp : p ∈ update_edge_weights ew k lat) : p.1 = k ∨ ∃ q ∈ ew, p.1 = q.1 := by
  unfold update_edge_weights at hp
  split at hp
  · obtain ⟨q, hq, he⟩ := List.mem_map.mp hp
    right
    refine ⟨q, hq, ?_⟩
    by_cases h : q.1 = k
    · rw [← he]; simp [h]
    · rw [← he]; simp [h]
  · rcases List.mem_append.mp hp with h | h
    · right; exact ⟨p, h, rfl⟩
    · left
      simp only [List.mem_singleton] at h
      rw [h]

lemma process_span_keys {tid : String} {procs : List (String × String)} {spans : List Span}
    {st : BuildState} {sp : Span}
    (h : ∀ p ∈ st.edgeWeights, p.1.1 ≠ p.1.2) :
    ∀ p ∈ (process_span tid procs spans st sp).edgeWeights, p.1.1 ≠ p.1.2 := by
  unfold process_span
  cases resolve_call procs spans sp with
  | none => exact h
  | some pc =>
    obtain ⟨ps, cs⟩ := pc
    by_cases hpc : ps = cs
    · simpa [hpc] using h
    · intro p hp
      simp only [if_neg hpc] at hp
      rcases update_edge_weights_key_mem hp with h1 | ⟨q, hq, h2⟩
      · rw [h1]; exact hpc
      · rw [h2]; exact h q hq

lemma foldl_preserve {α β : Type} {P : β → Prop} {f : β → α → β}
    (hf : ∀ b a, P b → P (f b a)) :
    ∀ (l : List α) (b : β), P b → P (l.foldl f b) := by
  intro l
  induction l with
  | nil => intro b hb; exact hb
  | cons x xs ih => intro b hb; exact ih _ (hf b x hb)

lemma build_state_keys (traces : List Trace) :
    ∀ p ∈ (build_state traces).edgeWeights, p.1.1 ≠ p.1.2 := by
  have h0 : ∀ p ∈ ({ edgeWeights := [], execSets := [] } : BuildState).edgeWeights,
      p.1.1 ≠ p.1.2 := by
    intro p hp
    simp at hp
  have hstep : ∀ (st : BuildState) (tr : Trace),
      (∀ p ∈ st.edgeWeights, p.1.1 ≠ p.1.2) →
      ∀ p ∈ (process_trace st tr).edgeWeights, p.1.1 ≠ p.1.2 := by
    intro st tr hst
    unfold process_trace
    exact @foldl_preserve Span BuildState (fun s => ∀ p ∈ s.edgeWeights, p.1.1 ≠ p.1.2)
      (fun s span => process_span tr.traceID tr.processes tr.spans s span)
      (fun s span h2 => process_span_keys h2) tr.spans st hst
  exact @foldl_preserve Trace BuildState (fun st => ∀ p ∈ st.edgeWeights, p.1.1 ≠ p.1.2)
    process_trace hstep traces { edgeWeights := [], execSets := [] } h0

lemma gp_process_span_keys {procs : List (String × String)} {spans : List Span}
    {ew : List ((String × String) × EdgeData)} {sp : Span}
    (h : ∀ p ∈ ew, p.1.1 ≠ p.1.2) :
    ∀ p ∈ gp_process_span procs spans ew sp, p.1.1 ≠ p.1.2 := by
  unfold gp_process_span
  cases resolve_call procs spans sp with
  | none => exact h
  | some pc =>
    obtain ⟨ps, cs⟩ := pc
    by_cases hpc : ps = cs
    · simpa [hpc] using h
    · intro p hp
      simp only [if_neg hpc] at hp
      rcases update_edge_weights_key_mem hp with h1 | ⟨q, hq, h2⟩
      · rw [h1]; exact hpc
      · rw [h2]; exact h q hq

lemma gp_build_keys (traces : List Trace) :
    ∀ p ∈ gp_build traces, p.1.1 ≠ p.1.2 := by
  have h0 : ∀ p ∈ ([] : List ((String × String) × EdgeData)), p.1.1 ≠ p.1.2 := by
    intro p hp
    simp at hp
  have hstep : ∀ (ew : List ((String × String) × EdgeData)) (tr : Trace),
      (∀ p ∈ ew, p.1.1 ≠ p.1.2) → ∀ p ∈ gp_process_trace ew tr, p.1.1 ≠ p.1.2 := by
    intro ew tr hew
    unfold gp_process_trace
    exact @foldl_preserve Span (List ((String × String) × EdgeData))
      (fun e => ∀ p ∈ e, p.1.1 ≠ p.1.2)
      (fun e span => gp_process_span tr.processes tr.spans e span)
      (fun e span h2 => gp_process_span_keys h2) tr.spans ew hew
  exact @foldl_preserve Trace (List ((String × String) × EdgeData))
    (fun e => ∀ p ∈ e, p.1.1 ≠ p.1.2) gp_process_trace hstep traces [] h0

lemma assign_edge_weights_sources {wt : WeightType}
    {ew : List ((String × String) × EdgeData)} {ex : List (String × List String)}
    {es : List OutEdge} (h : assign_edge_weights wt ew ex = some es) :
    ∀ e ∈ es, ∃ p ∈ ew, e.source = p.1.1 ∧ e.target = p.1.2 := by
  induction ew generalizing es with
  | nil =>
    simp only [assign_edge_weights, Option.some.injEq] at h
    subst h
    simp
  | cons p rest ih =>
    obtain ⟨k, data⟩ := p
    rw [assign_edge_weights] at h
    cases hl : data.latencies with
    | nil => rw [hl] at h; cases h
    | cons a as =>
      rw [hl] at h
      cases hr : assign_edge_weights wt rest ex with
      | none => rw [hr] at h; cases h
      | some es2 =>
        rw [hr] at h
        simp only [Option.some.injEq] at h
        subst h
        intro e he
        rcases List.mem_cons.mp he with he0 | hemem
        · subst he0
          exact ⟨(k, data), by simp, rfl, rfl⟩
        · obtain ⟨q, hq, h1, h2⟩ := ih hr e hemem
          exact ⟨q, List.mem_cons_of_mem _ hq, h1, h2⟩

lemma gp_assign_sources {wts : String}
    {ew : List ((String × String) × EdgeData)} {es : List GPEdge}
    (h : gp_assign wts ew = some es) :
    ∀ e ∈ es, ∃ p ∈ ew, e.source = p.1.1 ∧ e.target = p.1.2 := by
  induction ew generalizing es with
  | nil =>
    simp only [gp_assign, Option.some.injEq] at h
    subst h
    simp
  | cons p rest ih =>
    obtain ⟨k, data⟩ := p
    rw [gp_assign] at h
    cases hl : data.latencies with
    | nil => rw [hl] at h; cases h
    | cons a as =>
      rw [hl] at h
      by_cases hw : wts = "frequency" ∨ wts = "latency"
      · rw [if_pos hw] at h
        cases hr : gp_assign wts rest with
        | none => rw [hr] at h; cases h
        | some es2 =>
          rw [hr] at h
          simp only [Option.some.injEq] at h
          subst h
          intro e he
          rcases List.mem_cons.mp he with he0 | hemem
          · subst he0
            exact ⟨(k, data), by simp, rfl, rfl⟩
          · obtain ⟨q, hq, h1, h2⟩ := ih hr e hemem
            exact ⟨q, List.mem_cons_of_mem _ hq, h1, h2⟩
      · rw [if_neg hw] at h
        cases h

/-- Claim C8: neither graph builder ever emits a self-loop edge — every
edge of a successfully built graph has distinct source and target, for any
input trace batch and weight scheme. -/
theorem C8_no_self_loops :
    (∀ (traces : List Trace) (wt : WeightType) (g : GraphData),
        generate_graph_with_edge_weights traces wt = some g →
        ∀ e ∈ g.edges, e.source ≠ e.target) ∧
    (∀ (traces : List Trace) (wts : String) (g : GPGraph),
        generate_weighted_graph traces wts = some g →
        ∀ e ∈ g.edges, e.source ≠ e.target) := by
  constructor
  · intro traces wt g hg e he
    simp only [generate_graph_with_edge_weights] at hg
    cases ha : assign_edge_weights wt (build_state traces).edgeWeights
        (build_state traces).execSets with
    | none => rw [ha] at hg; cases hg
    | some es =>
      rw [ha] at hg
      simp only [Option.some.injEq] at hg
      subst hg
      obtain ⟨p, hp, h1, h2⟩ := assign_edge_weights_sources ha e (by simpa using he)
      rw [h1, h2]
      exact build_state_keys traces p hp
  · intro traces wts g hg e he
    simp only [generate_weighted_graph] at hg
    cases ha : gp_assign wts (gp_build traces) with
    | none => rw [ha] at hg; cases hg
    | some es =>
      rw [ha] at hg
      simp only [Option.some.injEq] at hg
      subst hg
      obtain ⟨p, hp, h1, h2⟩ := gp_assign_sources ha e (by simpa using he)
      rw [h1, h2]
      exact gp_build_keys traces p hp

/-- Witness for C8: the single-trace scenario graph is built successfully
and the theorem applies to its one edge, whose endpoints A and B indeed
differ. -/
theorem C8_no_self_loops_witness : ("A" : String) ≠ "B" := by
  have hg : generate_graph_with_edge_weights [scenario_trace "w1"] .Frequency = some c8_graph := by
    have hb : build_state [scenario_trace "w1"] =
        { edgeWeights := [(("A", "B"), { count := 1, latencies := [10] })],
          execSets := [("A", ["w1"]), ("B", ["w1"])] } := by
      simp [build_state, scenario_trace, process_trace, process_span, resolve_call,
        first_child_of, find_span, dict_lookup, add_trace_to_execution_sets,
        update_edge_weights]
      norm_num
    rw [generate_graph_with_edge_weights, hb]
    simp [assign_edge_weights, compute_jaccard_similarity, roundQ4, dict_lookup,
      inter_list, union_list, diff_list, graph_node_ids, calculate_node_weights,
      keys_into, keys_from, distinct_list, c8_graph]
    norm_num
  exact C8_no_self_loops.1 [scenario_trace "w1"] .Frequency c8_graph hg
    { source := "A", target := "B", weight := 1, latencyMs := 10, frequency := 1,
      co_execution := 1 }
    (by simp [c8_graph])

lemma occ_append {α : Type} [DecidableEq α] (x : α) (l1 l2 : List α) :
    occ x (l1 ++ l2) = occ x l1 + occ x l2 := by
  induction l1 with
  | nil => simp [occ]
  | cons y ys ih => simp [occ, ih, Nat.add_assoc]

lemma occ_eq_zero_of_not_mem {α : Type} [DecidableEq α] {x : α} {l : List α}
    (h : x ∉ l) : occ x l = 0 := by
  induction l with
  | nil => rfl
  | cons y ys ih =>
    have hyx : ¬ y = x := fun e => h (by simp [e])
    have hx : x ∉ ys := fun m => h (by simp [m])
    simp [occ, hyx, ih hx]

lemma occ_nodup {α : Type} [DecidableEq α] {l : List α} (h : l.Nodup) (x : α) :
    occ x l = if x ∈ l then 1 else 0 := by
  induction l with
  | nil => simp [occ]
  | cons y ys ih =>
    rw [List.nodup_cons] at h
    obtain ⟨hy, hys⟩ := h
    by_cases hxy : y = x
    · subst hxy
      simp [occ, occ_eq_zero_of_not_mem hy]
    · have hxy2 : ¬ x = y := fun e => hxy e.symm
      simp [occ, hxy, ih hys, List.mem_cons, hxy2]

lemma occ_map_pair {α : Type} [DecidableEq α] (x a b : α) (L : List α) :
    occ (a, b) (L.map (fun y => (x, y))) = if a = x then occ b L else 0 := by
  induction L with
  | nil => simp [occ]
  | cons y ys ih =>
    by_cases hax : a = x
    · subst hax
      by_cases hyb : y = b
      · subst hyb
        simp [occ, List.map_cons, ih, Prod.mk.injEq]
      · simp [occ, List.map_cons, ih, Prod.mk.injEq, hyb]
    · have hxa : ¬ x = a := fun e => hax e.symm
      simp [occ, List.map_cons, ih, Prod.mk.injEq, hax, hxa]

lemma occ_perm2Aux {α : Type} [DecidableEq α] (a b : α) :
    ∀ (l pre : List α), (pre ++ l).Nodup →
      occ (a, b) (perm2Aux pre l) =
        if a ∈ l ∧ b ∈ pre ++ l ∧ a ≠ b then 1 else 0 := by
  intro l
  induction l with
  | nil =>
    intro pre h
    simp [perm2Aux, occ]
  | cons x xs ih =>
    intro pre h0
    have h := h0
    rw [List.nodup_append] at h
    obtain ⟨h1, h2, h3⟩ := h
    rw [List.nodup_cons] at h2
    obtain ⟨hxxs, hxs⟩ := h2
    have hxpre : x ∉ pre := fun hm => h3 hm (by simp)
    have hpxs : (pre ++ xs).Nodup :=
      List.nodup_append.mpr ⟨h1, hxs, fun c hc hcx => h3 hc (by simp [hcx])⟩
    have hassoc : (pre ++ [x]) ++ xs = pre ++ x :: xs := by simp
    have hnodup2 : ((pre ++ [x]) ++ xs).Nodup := by rw [hassoc]; exact h0
    rw [perm2Aux, occ_append, occ_map_pair, ih (pre ++ [x]) hnodup2, occ_nodup hpxs b, hassoc]
    by_cases hax : a = x
    · subst hax
      have hnotxs : ¬ (a ∈ xs ∧ b ∈ pre ++ a :: xs ∧ a ≠ b) := fun hc => hxxs hc.1
      rw [if_neg hnotxs, if_pos rfl]
      by_cases hba : b = a
      · subst hba
        have hnm : b ∉ pre ++ xs := by
          simp only [List.mem_append]
          rintro (hc | hc)
          · exact hxpre hc
          · exact hxxs hc
        rw [if_neg hnm, if_neg (fun hc => hc.2.2 rfl)]
      · have hmem : (b ∈ pre ++ xs) ↔ (b ∈ pre ++ a :: xs) := by
          simp [List.mem_append, List.mem_cons, hba]
        by_cases hb : b ∈ pre ++ xs
        · rw [if_pos hb, if_pos ⟨by simp, hmem.mp hb, fun e => hba e.symm⟩]
        · rw [if_neg hb, if_neg (fun hc => hb (hmem.mpr hc.2.1))]
    · have hmemx : (a ∈ x :: xs) ↔ (a ∈ xs) := by simp [List.mem_cons, hax]
      rw [if_neg hax, Nat.zero_add]
      by_cases hc : a ∈ xs ∧ b ∈ pre ++ x :: xs ∧ a ≠ b
      · rw [if_pos hc, if_pos ⟨hmemx.mpr hc.1, hc.2.1, hc.2.2⟩]
      · rw [if_neg hc, if_neg (fun hd => hc ⟨hmemx.mp hd.1, hd.2.1, hd.2.2⟩)]

lemma occ_map_edgekey (a b : String) (ps : List (String × String)) :
    occ ({ source := a, target := b } : EdgeKey)
      (ps.map (fun p => ({ source := p.1, target := p.2 } : EdgeKey))) = occ (a, b) ps := by
  induction ps with
  | nil => rfl
  | cons p rest ih =>
    obtain ⟨p1, p2⟩ := p
    by_cases h1 : p1 = a
    · by_cases h2 : p2 = b
      · subst h1
        subst h2
        simp [occ, List.map_cons, ih]
      · simp [occ, List.map_cons, ih, EdgeKey.mk.injEq, Prod.mk.injEq, h2]
    · simp [occ, List.map_cons, ih, EdgeKey.mk.injEq, Prod.mk.injEq, h1]

/-- Claim C7, counterexample: over a window of two snapshots that each
observe services A and B, the flattened node list repeats both ids, so
the candidate edge enumeration contains the equal-endpoint pair (A, A) and
lists the pair (A, B) four times rather than exactly once. -/
theorem C7_counterexample :
    ({ source := "A", target := "A" } : EdgeKey) ∈ get_all_edges (get_nodes c7_raw) true ∧
    occ ({ source := "A", target := "B" } : EdgeKey) (get_all_edges (get_nodes c7_raw) true) = 4 := by
  constructor
  · decide
  · decide

/-- Claim C7 as amended: when every observed id occurs exactly once in the
concatenated per-snapshot node lists, the candidate edge set of fleet-wide
analysis is exactly every directed ordered pair of distinct observed ids,
each exactly once, and no equal-endpoint pair; with repeated ids the
enumeration degrades as the counterexample shows. -/
theorem C7_candidate_edges :
    ∀ (raw : List MetricDoc), ((get_nodes raw).map (fun n => n.id)).Nodup →
      ∀ (a b : String),
        occ ({ source := a, target := b } : EdgeKey) (get_all_edges (get_nodes raw) true) =
          if a ∈ (get_nodes raw).map (fun n => n.id) ∧
              b ∈ (get_nodes raw).map (fun n => n.id) ∧ a ≠ b then 1 else 0 := by
  intro raw hnd a b
  have hids : ∀ (ids : List String), ids.Nodup →
      occ ({ source := a, target := b } : EdgeKey)
        ((perm2 ids).map (fun p => ({ source := p.1, target := p.2 } : EdgeKey))) =
        if a ∈ ids ∧ b ∈ ids ∧ a ≠ b then 1 else 0 := by
    intro ids hn
    rw [occ_map_edgekey, perm2, occ_perm2Aux a b ids [] (by simpa using hn)]
    simp
  have hmain := hids ((get_nodes raw).map (fun n => n.id)) hnd
  simpa [get_all_edges] using hmain

/-- Witness for C7 on a single snapshot observing A and B once: the
candidate pair (A, B) appears exactly once. -/
theorem C7_candidate_edges_witness :
    occ ({ source := "A", target := "B" } : EdgeKey)
      (get_all_edges (get_nodes c7_single_raw) true) = 1 := by
  have h := C7_candidate_edges c7_single_raw (by decide) "A" "B"
  rw [h, if_pos ⟨by decide, by decide, by decide⟩]
